import Mathlib

/-!
Shallow embedding of the wolfHSM communication layer header
(wolfhsm/wh_comm.h): packet-size constants, the magic / endianness
constants, the width-parametrized translation primitives, and models of
the client/server session operations described by the design document.
Machine integers are embedded as Nat with explicit reduction modulo
2^width where the C code converts a wider intermediate result back to a
fixed-width type.
-/

/-! ## Constants from wh_comm.h -/

def WOLFHSM_COMM_HEADER_LEN : Nat := 8

def WOLFHSM_COMM_DATA_LEN : Nat := 1280

def WOLFHSM_COMM_MTU : Nat := WOLFHSM_COMM_HEADER_LEN + WOLFHSM_COMM_DATA_LEN

def WH_COMM_VERSION : Nat := 0x01

def WH_COMM_ENDIAN : Nat := 0xA5

def WH_COMM_MAGIC_ENDIAN_MASK : Nat := 0xFF00

def WH_COMM_MAGIC_VERSION_MASK : Nat := 0x00FF

def WH_COMM_MAGIC_NATIVE : Nat := (WH_COMM_ENDIAN <<< 8) ||| WH_COMM_VERSION

def WH_COMM_MAGIC_SWAP : Nat := WH_COMM_ENDIAN ||| (WH_COMM_VERSION <<< 8)

/-- Embedding of the WH_COMM_FLAGS_SWAPTEST macro: compare the magic's
endian-mask bits against the native magic's endian-mask bits. -/
def WH_COMM_FLAGS_SWAPTEST (magic : Nat) : Bool :=
  (magic &&& WH_COMM_MAGIC_ENDIAN_MASK) == (WH_COMM_MAGIC_NATIVE &&& WH_COMM_MAGIC_ENDIAN_MASK)

/-! ## Translation primitives from wh_comm.h -/

/-- Embedding of wh_Translate8: the magic is ignored and the value is
returned unchanged. -/
def wh_Translate8 (magic val : Nat) : Nat :=
  val

/-- Embedding of wh_Translate16.  The C swap branch computes
(val >> 8) | (val << 8) in a wider integer type and converts the result
back to uint16_t, hence the reduction modulo 2^16. -/
def wh_Translate16 (magic val : Nat) : Nat :=
  if WH_COMM_FLAGS_SWAPTEST magic then val
  else ((val >>> 8) ||| (val <<< 8)) % 2 ^ 16

/-- Embedding of wh_Translate32, byte for byte as written in the source:
note that the third term of the swap branch shifts (val AND 0xFF00)
RIGHT by 8, exactly as the C code does. -/
def wh_Translate32 (magic val : Nat) : Nat :=
  if WH_COMM_FLAGS_SWAPTEST magic then val
  else (((val &&& 0xFF000000) >>> 24) |||
        ((val &&& 0xFF0000) >>> 8) |||
        ((val &&& 0xFF00) >>> 8) |||
        ((val &&& 0xFF) <<< 24)) % 2 ^ 32

/-- Embedding of wh_Translate64. -/
def wh_Translate64 (magic val : Nat) : Nat :=
  if WH_COMM_FLAGS_SWAPTEST magic then val
  else (((val &&& 0xFF00000000000000) >>> 56) |||
        ((val &&& 0xFF000000000000) >>> 40) |||
        ((val &&& 0xFF0000000000) >>> 24) |||
        ((val &&& 0xFF00000000) >>> 8) |||
        ((val &&& 0xFF000000) <<< 8) |||
        ((val &&& 0xFF0000) <<< 24) |||
        ((val &&& 0xFF00) <<< 40) |||
        ((val &&& 0xFF) <<< 56)) % 2 ^ 64

/-! ## Byte reversal, defined from the specification's words -/

/-- Full byte reversal of a 16-bit value: the two bytes are exchanged. -/
def byteReverse16 (v : Nat) : Nat :=
  (v % 2 ^ 8) * 2 ^ 8 + (v / 2 ^ 8) % 2 ^ 8

/-- Full byte reversal of a 32-bit value: byte 0 and byte 3 are
exchanged, byte 1 and byte 2 are exchanged. -/
def byteReverse32 (v : Nat) : Nat :=
  (v % 2 ^ 8) * 2 ^ 24 + ((v / 2 ^ 8) % 2 ^ 8) * 2 ^ 16 +
  ((v / 2 ^ 16) % 2 ^ 8) * 2 ^ 8 + (v / 2 ^ 24) % 2 ^ 8

/-- Full byte reversal of a 64-bit value: byte i moves to byte 7 - i. -/
def byteReverse64 (v : Nat) : Nat :=
  (v % 2 ^ 8) * 2 ^ 56 + ((v / 2 ^ 8) % 2 ^ 8) * 2 ^ 48 +
  ((v / 2 ^ 16) % 2 ^ 8) * 2 ^ 40 + ((v / 2 ^ 24) % 2 ^ 8) * 2 ^ 32 +
  ((v / 2 ^ 32) % 2 ^ 8) * 2 ^ 24 + ((v / 2 ^ 40) % 2 ^ 8) * 2 ^ 16 +
  ((v / 2 ^ 48) % 2 ^ 8) * 2 ^ 8 + (v / 2 ^ 56) % 2 ^ 8

/-! ## Bit-level helper lemmas -/

theorem land_mask_shift (v n k : Nat) :
    v &&& (2 ^ n - 1) <<< k = ((v >>> k) % 2 ^ n) <<< k := by
  apply Nat.eq_of_testBit_eq
  intro i
  simp only [Nat.testBit_land, Nat.testBit_shiftLeft, Nat.testBit_two_pow_sub_one,
    Nat.testBit_mod_two_pow, Nat.testBit_shiftRight]
  rcases le_or_lt k i with hk | hk
  · have hki : k + (i - k) = i := by omega
    simp only [ge_iff_le, hk, decide_True, Bool.true_and, hki]
    cases v.testBit i <;> simp [Bool.and_comm]
  · simp [show ¬ k ≤ i from by omega]

theorem land_mul_pow_eq_zero (a b n : Nat) (h : a < 2 ^ n) :
    a &&& b * 2 ^ n = 0 := by
  apply Nat.eq_of_testBit_eq
  intro i
  simp only [Nat.zero_testBit, Nat.testBit_land]
  rcases Nat.lt_or_ge i n with hi | hi
  · rw [← Nat.shiftLeft_eq, Nat.testBit_shiftLeft]
    simp [show ¬ n ≤ i from by omega]
  · have ha : a.testBit i = false :=
      Nat.testBit_lt_two_pow (Nat.lt_of_lt_of_le h (Nat.pow_le_pow_right (by norm_num) hi))
    simp [ha]

theorem lor_eq_add_of_land_eq_zero (a : Nat) :
    ∀ b : Nat, a &&& b = 0 → a ||| b = a + b := by
  induction a using Nat.binaryRec with
  | z => intro b _; simp
  | f xb xn ih =>
    intro b hb
    induction b using Nat.binaryRec with
    | z => simp
    | f yb yn _ =>
      rw [Nat.land_bit] at hb
      rw [Nat.bit_val] at hb
      have h1 : xn &&& yn = 0 := by
        cases hab : (xb && yb) <;> rw [hab] at hb <;> simp at hb <;> omega
      have h2 : (xb && yb) = false := by
        cases hab : (xb && yb) <;> rw [hab] at hb <;> simp at hb
      rw [Nat.lor_bit, Nat.bit_val, Nat.bit_val, Nat.bit_val, ih _ h1]
      cases xb <;> cases yb <;> simp_all <;> omega

/-! ## Swap-branch evaluation lemmas -/

theorem swaptest_native_true : WH_COMM_FLAGS_SWAPTEST WH_COMM_MAGIC_NATIVE = true := by
  decide

theorem swaptest_swap_false : WH_COMM_FLAGS_SWAPTEST WH_COMM_MAGIC_SWAP = false := by
  decide

theorem wh_Translate16_swap_branch (m v : Nat) (hm : WH_COMM_FLAGS_SWAPTEST m = false)
    (hv : v < 2 ^ 16) : wh_Translate16 m v = byteReverse16 v := by
  simp only [wh_Translate16, hm, Bool.false_eq_true, if_false]
  rw [Nat.shiftRight_eq_div_pow, Nat.shiftLeft_eq]
  rw [lor_eq_add_of_land_eq_zero (v / 2 ^ 8) (v * 2 ^ 8)
        (land_mul_pow_eq_zero (v / 2 ^ 8) v 8 (by omega))]
  have he : v / 2 ^ 8 + v * 2 ^ 8 = 2 ^ 16 * (v / 2 ^ 8) + byteReverse16 v := by
    unfold byteReverse16; omega
  have hlt : byteReverse16 v < 2 ^ 16 := by
    unfold byteReverse16; omega
  rw [he]
  omega

set_option maxHeartbeats 2000000 in
theorem wh_Translate64_swap_branch (m v : Nat) (hm : WH_COMM_FLAGS_SWAPTEST m = false)
    (hv : v < 2 ^ 64) : wh_Translate64 m v = byteReverse64 v := by
  simp only [wh_Translate64, hm, Bool.false_eq_true, if_false]
  rw [show (0xFF00000000000000 : Nat) = (2 ^ 8 - 1) <<< 56 from by decide,
      show (0xFF000000000000 : Nat) = (2 ^ 8 - 1) <<< 48 from by decide,
      show (0xFF0000000000 : Nat) = (2 ^ 8 - 1) <<< 40 from by decide,
      show (0xFF00000000 : Nat) = (2 ^ 8 - 1) <<< 32 from by decide,
      show (0xFF000000 : Nat) = (2 ^ 8 - 1) <<< 24 from by decide,
      show (0xFF0000 : Nat) = (2 ^ 8 - 1) <<< 16 from by decide,
      show (0xFF00 : Nat) = (2 ^ 8 - 1) <<< 8 from by decide,
      show (0xFF : Nat) = (2 ^ 8 - 1) <<< 0 from by decide]
  rw [land_mask_shift, land_mask_shift, land_mask_shift, land_mask_shift,
      land_mask_shift, land_mask_shift, land_mask_shift, land_mask_shift]
  simp only [Nat.shiftLeft_eq, Nat.shiftRight_eq_div_pow]
  have e7 : v / 2 ^ 56 % 2 ^ 8 * 2 ^ 56 / 2 ^ 56 = v / 2 ^ 56 % 2 ^ 8 := by omega
  have e6 : v / 2 ^ 48 % 2 ^ 8 * 2 ^ 48 / 2 ^ 40 = v / 2 ^ 48 % 2 ^ 8 * 2 ^ 8 := by omega
  have e5 : v / 2 ^ 40 % 2 ^ 8 * 2 ^ 40 / 2 ^ 24 = v / 2 ^ 40 % 2 ^ 8 * 2 ^ 16 := by omega
  have e4 : v / 2 ^ 32 % 2 ^ 8 * 2 ^ 32 / 2 ^ 8 = v / 2 ^ 32 % 2 ^ 8 * 2 ^ 24 := by omega
  have e3 : v / 2 ^ 24 % 2 ^ 8 * 2 ^ 24 * 2 ^ 8 = v / 2 ^ 24 % 2 ^ 8 * 2 ^ 32 := by omega
  have e2 : v / 2 ^ 16 % 2 ^ 8 * 2 ^ 16 * 2 ^ 24 = v / 2 ^ 16 % 2 ^ 8 * 2 ^ 40 := by omega
  have e1 : v / 2 ^ 8 % 2 ^ 8 * 2 ^ 8 * 2 ^ 40 = v / 2 ^ 8 % 2 ^ 8 * 2 ^ 48 := by omega
  have e0 : v / 2 ^ 0 % 2 ^ 8 * 2 ^ 0 * 2 ^ 56 = v % 2 ^ 8 * 2 ^ 56 := by omega
  rw [e7, e6, e5, e4, e3, e2, e1, e0]
  rw [lor_eq_add_of_land_eq_zero (v / 2 ^ 56 % 2 ^ 8) (v / 2 ^ 48 % 2 ^ 8 * 2 ^ 8)
        (land_mul_pow_eq_zero (v / 2 ^ 56 % 2 ^ 8) (v / 2 ^ 48 % 2 ^ 8) 8 (by omega))]
  rw [lor_eq_add_of_land_eq_zero (v / 2 ^ 56 % 2 ^ 8 + v / 2 ^ 48 % 2 ^ 8 * 2 ^ 8)
        (v / 2 ^ 40 % 2 ^ 8 * 2 ^ 16)
        (land_mul_pow_eq_zero _ (v / 2 ^ 40 % 2 ^ 8) 16 (by omega))]
  rw [lor_eq_add_of_land_eq_zero
        (v / 2 ^ 56 % 2 ^ 8 + v / 2 ^ 48 % 2 ^ 8 * 2 ^ 8 + v / 2 ^ 40 % 2 ^ 8 * 2 ^ 16)
        (v / 2 ^ 32 % 2 ^ 8 * 2 ^ 24)
        (land_mul_pow_eq_zero _ (v / 2 ^ 32 % 2 ^ 8) 24 (by omega))]
  rw [lor_eq_add_of_land_eq_zero
        (v / 2 ^ 56 % 2 ^ 8 + v / 2 ^ 48 % 2 ^ 8 * 2 ^ 8 + v / 2 ^ 40 % 2 ^ 8 * 2 ^ 16 +
          v / 2 ^ 32 % 2 ^ 8 * 2 ^ 24)
        (v / 2 ^ 24 % 2 ^ 8 * 2 ^ 32)
        (land_mul_pow_eq_zero _ (v / 2 ^ 24 % 2 ^ 8) 32 (by omega))]
  rw [lor_eq_add_of_land_eq_zero
        (v / 2 ^ 56 % 2 ^ 8 + v / 2 ^ 48 % 2 ^ 8 * 2 ^ 8 + v / 2 ^ 40 % 2 ^ 8 * 2 ^ 16 +
          v / 2 ^ 32 % 2 ^ 8 * 2 ^ 24 + v / 2 ^ 24 % 2 ^ 8 * 2 ^ 32)
        (v / 2 ^ 16 % 2 ^ 8 * 2 ^ 40)
        (land_mul_pow_eq_zero _ (v / 2 ^ 16 % 2 ^ 8) 40 (by omega))]
  rw [lor_eq_add_of_land_eq_zero
        (v / 2 ^ 56 % 2 ^ 8 + v / 2 ^ 48 % 2 ^ 8 * 2 ^ 8 + v / 2 ^ 40 % 2 ^ 8 * 2 ^ 16 +
          v / 2 ^ 32 % 2 ^ 8 * 2 ^ 24 + v / 2 ^ 24 % 2 ^ 8 * 2 ^ 32 + v / 2 ^ 16 % 2 ^ 8 * 2 ^ 40)
        (v / 2 ^ 8 % 2 ^ 8 * 2 ^ 48)
        (land_mul_pow_eq_zero _ (v / 2 ^ 8 % 2 ^ 8) 48 (by omega))]
  rw [lor_eq_add_of_land_eq_zero
        (v / 2 ^ 56 % 2 ^ 8 + v / 2 ^ 48 % 2 ^ 8 * 2 ^ 8 + v / 2 ^ 40 % 2 ^ 8 * 2 ^ 16 +
          v / 2 ^ 32 % 2 ^ 8 * 2 ^ 24 + v / 2 ^ 24 % 2 ^ 8 * 2 ^ 32 + v / 2 ^ 16 % 2 ^ 8 * 2 ^ 40 +
          v / 2 ^ 8 % 2 ^ 8 * 2 ^ 48)
        (v % 2 ^ 8 * 2 ^ 56)
        (land_mul_pow_eq_zero _ (v % 2 ^ 8) 56 (by omega))]
  unfold byteReverse64
  omega

theorem land_endian_mask (m : Nat) :
    m &&& WH_COMM_MAGIC_ENDIAN_MASK = (m >>> 8) % 2 ^ 8 * 2 ^ 8 := by
  rw [show WH_COMM_MAGIC_ENDIAN_MASK = (2 ^ 8 - 1) <<< 8 from by decide]
  rw [land_mask_shift, Nat.shiftLeft_eq]

theorem swaptest_eq_false_of_hi_byte (m : Nat) (hm : m < 2 ^ 16) (h : m >>> 8 ≠ 0xA5) :
    WH_COMM_FLAGS_SWAPTEST m = false := by
  rw [Nat.shiftRight_eq_div_pow] at h
  unfold WH_COMM_FLAGS_SWAPTEST
  rw [land_endian_mask, Nat.shiftRight_eq_div_pow,
    show WH_COMM_MAGIC_NATIVE &&& WH_COMM_MAGIC_ENDIAN_MASK = 0xA500 from by decide]
  simp only [beq_eq_false_iff_ne, ne_eq]
  omega

theorem byteReverse16_lt (v : Nat) : byteReverse16 v < 2 ^ 16 := by
  unfold byteReverse16; omega

theorem byteReverse64_lt (v : Nat) : byteReverse64 v < 2 ^ 64 := by
  unfold byteReverse64; omega

theorem byteReverse16_bytes (b0 b1 : Nat) (h0 : b0 < 256) (h1 : b1 < 256) :
    byteReverse16 (b0 + b1 * 2 ^ 8) = b1 + b0 * 2 ^ 8 := by
  unfold byteReverse16; omega

theorem byteReverse16_involution (v : Nat) (hv : v < 2 ^ 16) :
    byteReverse16 (byteReverse16 v) = v := by
  obtain ⟨b0, b1, rfl, h0, h1⟩ :
      ∃ b0 b1 : Nat, v = b0 + b1 * 2 ^ 8 ∧ b0 < 256 ∧ b1 < 256 :=
    ⟨v % 2 ^ 8, v / 2 ^ 8, by omega, by omega, by omega⟩
  rw [byteReverse16_bytes b0 b1 h0 h1, byteReverse16_bytes b1 b0 h1 h0]

theorem byteReverse64_bytes (b0 b1 b2 b3 b4 b5 b6 b7 : Nat)
    (h0 : b0 < 256) (h1 : b1 < 256) (h2 : b2 < 256) (h3 : b3 < 256)
    (h4 : b4 < 256) (h5 : b5 < 256) (h6 : b6 < 256) (h7 : b7 < 256) :
    byteReverse64 (b0 + b1 * 2 ^ 8 + b2 * 2 ^ 16 + b3 * 2 ^ 24 + b4 * 2 ^ 32 +
        b5 * 2 ^ 40 + b6 * 2 ^ 48 + b7 * 2 ^ 56) =
      b7 + b6 * 2 ^ 8 + b5 * 2 ^ 16 + b4 * 2 ^ 24 + b3 * 2 ^ 32 +
        b2 * 2 ^ 40 + b1 * 2 ^ 48 + b0 * 2 ^ 56 := by
  unfold byteReverse64; omega

theorem byteReverse64_involution (v : Nat) (hv : v < 2 ^ 64) :
    byteReverse64 (byteReverse64 v) = v := by
  obtain ⟨b0, b1, b2, b3, b4, b5, b6, b7, rfl, h0, h1, h2, h3, h4, h5, h6, h7⟩ :
      ∃ b0 b1 b2 b3 b4 b5 b6 b7 : Nat,
        v = b0 + b1 * 2 ^ 8 + b2 * 2 ^ 16 + b3 * 2 ^ 24 + b4 * 2 ^ 32 +
            b5 * 2 ^ 40 + b6 * 2 ^ 48 + b7 * 2 ^ 56 ∧
          b0 < 256 ∧ b1 < 256 ∧ b2 < 256 ∧ b3 < 256 ∧
          b4 < 256 ∧ b5 < 256 ∧ b6 < 256 ∧ b7 < 256 :=
    ⟨v % 2 ^ 8, v / 2 ^ 8 % 2 ^ 8, v / 2 ^ 16 % 2 ^ 8, v / 2 ^ 24 % 2 ^ 8,
     v / 2 ^ 32 % 2 ^ 8, v / 2 ^ 40 % 2 ^ 8, v / 2 ^ 48 % 2 ^ 8, v / 2 ^ 56 % 2 ^ 8,
     by omega, by omega, by omega, by omega, by omega, by omega, by omega, by omega, by omega⟩
  rw [byteReverse64_bytes b0 b1 b2 b3 b4 b5 b6 b7 h0 h1 h2 h3 h4 h5 h6 h7,
    byteReverse64_bytes b7 b6 b5 b4 b3 b2 b1 b0 h7 h6 h5 h4 h3 h2 h1 h0]

/-! ## Claim theorems about the translation primitives -/

/-- Claim C1: the claim states that wh_Translate32 with the swapped magic
is the full byte reversal.  The code disagrees: its third swap term
shifts (val AND 0xFF00) right instead of left, so byte 1 lands on byte 0.
At val = 0x100 the code yields 1 while the byte reversal is 0x10000. -/
theorem wh_Translate32_swap_not_byteReverse :
    wh_Translate32 WH_COMM_MAGIC_SWAP 0x100 = 0x1 ∧
    byteReverse32 0x100 = 0x10000 ∧
    wh_Translate32 WH_COMM_MAGIC_SWAP 0x100 ≠ byteReverse32 0x100 := by
  decide

/-- Claim C2: wh_Translate16 and wh_Translate64 with the swapped magic
compute the full byte reversal of their value argument. -/
theorem wh_Translate16_64_swap_byteReverse (v w : Nat) (hv : v < 2 ^ 16) (hw : w < 2 ^ 64) :
    wh_Translate16 WH_COMM_MAGIC_SWAP v = byteReverse16 v ∧
    wh_Translate64 WH_COMM_MAGIC_SWAP w = byteReverse64 w :=
  ⟨wh_Translate16_swap_branch _ v swaptest_swap_false hv,
   wh_Translate64_swap_branch _ w swaptest_swap_false hw⟩

theorem wh_Translate16_64_swap_byteReverse_witness :
    wh_Translate16 WH_COMM_MAGIC_SWAP 0x1234 = byteReverse16 0x1234 ∧
    wh_Translate64 WH_COMM_MAGIC_SWAP 0x0123456789ABCDEF = byteReverse64 0x0123456789ABCDEF :=
  wh_Translate16_64_swap_byteReverse 0x1234 0x0123456789ABCDEF (by decide) (by decide)

/-- Claim C3: with the native magic every translation width returns the
value unchanged, and wh_Translate8 is the identity for every magic. -/
theorem wh_Translate_native_identity :
    (∀ v, wh_Translate16 WH_COMM_MAGIC_NATIVE v = v) ∧
    (∀ v, wh_Translate32 WH_COMM_MAGIC_NATIVE v = v) ∧
    (∀ v, wh_Translate64 WH_COMM_MAGIC_NATIVE v = v) ∧
    (∀ m v, wh_Translate8 m v = v) := by
  refine ⟨fun v => ?_, fun v => ?_, fun v => ?_, fun m v => rfl⟩ <;>
    simp [wh_Translate16, wh_Translate32, wh_Translate64, swaptest_native_true]

/-- Claim C4: any 16-bit magic whose high byte is not the native endian
marker 0xA5 fails the swap test, so wh_Translate16, wh_Translate32 and
wh_Translate64 all take the swap branch: each behaves exactly as it does
under WH_COMM_MAGIC_SWAP, and for widths 16 and 64 that branch is the
full byte reversal rather than a rejection or a pass-through. -/
theorem wh_Translate_corrupt_magic_swaps (m : Nat) (hm : m < 2 ^ 16) (hhb : m >>> 8 ≠ 0xA5) :
    WH_COMM_FLAGS_SWAPTEST m = false ∧
    (∀ v, wh_Translate16 m v = wh_Translate16 WH_COMM_MAGIC_SWAP v) ∧
    (∀ v, wh_Translate32 m v = wh_Translate32 WH_COMM_MAGIC_SWAP v) ∧
    (∀ v, wh_Translate64 m v = wh_Translate64 WH_COMM_MAGIC_SWAP v) ∧
    (∀ v, v < 2 ^ 16 → wh_Translate16 m v = byteReverse16 v) ∧
    (∀ v, v < 2 ^ 64 → wh_Translate64 m v = byteReverse64 v) := by
  have hsw := swaptest_eq_false_of_hi_byte m hm hhb
  refine ⟨hsw, fun v => ?_, fun v => ?_, fun v => ?_,
    fun v hv => wh_Translate16_swap_branch m v hsw hv,
    fun v hv => wh_Translate64_swap_branch m v hsw hv⟩ <;>
    simp only [wh_Translate16, wh_Translate32, wh_Translate64, hsw, swaptest_swap_false]

theorem wh_Translate_corrupt_magic_swaps_witness :
    WH_COMM_FLAGS_SWAPTEST 0x5A01 = false ∧
    wh_Translate16 0x5A01 0x1234 = byteReverse16 0x1234 := by
  have h := wh_Translate_corrupt_magic_swaps 0x5A01 (by decide) (by decide)
  exact ⟨h.1, h.2.2.2.2.1 0x1234 (by decide)⟩

/-- Claim C5: the translation result depends on the magic only through
its bits under WH_COMM_MAGIC_ENDIAN_MASK, for every width. -/
theorem wh_Translate_depends_only_on_endian_mask (m1 m2 v : Nat)
    (h : m1 &&& WH_COMM_MAGIC_ENDIAN_MASK = m2 &&& WH_COMM_MAGIC_ENDIAN_MASK) :
    wh_Translate8 m1 v = wh_Translate8 m2 v ∧
    wh_Translate16 m1 v = wh_Translate16 m2 v ∧
    wh_Translate32 m1 v = wh_Translate32 m2 v ∧
    wh_Translate64 m1 v = wh_Translate64 m2 v := by
  have hsw : WH_COMM_FLAGS_SWAPTEST m1 = WH_COMM_FLAGS_SWAPTEST m2 := by
    unfold WH_COMM_FLAGS_SWAPTEST; rw [h]
  refine ⟨rfl, ?_, ?_, ?_⟩ <;>
    simp only [wh_Translate16, wh_Translate32, wh_Translate64, hsw]

theorem wh_Translate_depends_only_on_endian_mask_witness :
    wh_Translate8 0xA5FF 0x77 = wh_Translate8 0xA500 0x77 ∧
    wh_Translate16 0xA5FF 0x77 = wh_Translate16 0xA500 0x77 ∧
    wh_Translate32 0xA5FF 0x77 = wh_Translate32 0xA500 0x77 ∧
    wh_Translate64 0xA5FF 0x77 = wh_Translate64 0xA500 0x77 :=
  wh_Translate_depends_only_on_endian_mask 0xA5FF 0xA500 0x77 (by decide)

/-- Claim C6: the native and swapped magic constants never alias, the
native one passes the swap test, the swapped one fails it, and their
high bytes under the endian mask differ. -/
theorem wh_comm_magic_constants_ok :
    WH_COMM_MAGIC_NATIVE ≠ WH_COMM_MAGIC_SWAP ∧
    WH_COMM_FLAGS_SWAPTEST WH_COMM_MAGIC_NATIVE = true ∧
    WH_COMM_FLAGS_SWAPTEST WH_COMM_MAGIC_SWAP = false ∧
    WH_COMM_MAGIC_NATIVE &&& WH_COMM_MAGIC_ENDIAN_MASK ≠
      WH_COMM_MAGIC_SWAP &&& WH_COMM_MAGIC_ENDIAN_MASK ∧
    WH_COMM_MAGIC_NATIVE = 0xA501 ∧ WH_COMM_MAGIC_SWAP = 0x01A5 := by
  decide

/-- Claim C10: wh_Translate16 and wh_Translate64 are involutions in
their value argument, for every magic. -/
theorem wh_Translate16_64_involutive (m v w : Nat) (hv : v < 2 ^ 16) (hw : w < 2 ^ 64) :
    wh_Translate16 m (wh_Translate16 m v) = v ∧
    wh_Translate64 m (wh_Translate64 m w) = w := by
  cases hsw : WH_COMM_FLAGS_SWAPTEST m with
  | true => constructor <;> simp [wh_Translate16, wh_Translate64, hsw]
  | false =>
    constructor
    · rw [wh_Translate16_swap_branch m v hsw hv,
        wh_Translate16_swap_branch m _ hsw (byteReverse16_lt v)]
      exact byteReverse16_involution v hv
    · rw [wh_Translate64_swap_branch m w hsw hw,
        wh_Translate64_swap_branch m _ hsw (byteReverse64_lt w)]
      exact byteReverse64_involution w hw

theorem wh_Translate16_64_involutive_witness :
    wh_Translate16 0x01A5 (wh_Translate16 0x01A5 0x1234) = 0x1234 ∧
    wh_Translate64 0x01A5 (wh_Translate64 0x01A5 0xDEADBEEF) = 0xDEADBEEF :=
  wh_Translate16_64_involutive 0x01A5 0x1234 0xDEADBEEF (by decide) (by decide)

/-! ## Packet header and size constants -/

/-- Embedding of the whHeader struct: exactly four 16-bit fields in
wire order. -/
structure whHeader where
  magic : Nat
  type : Nat
  seq : Nat
  aux : Nat

/-- Wire image of a header: each of the four 16-bit fields contributes
exactly two bytes, in the fixed field order of the struct. -/
def whHeader.encode (h : whHeader) : List Nat :=
  [h.magic % 2 ^ 8, h.magic / 2 ^ 8 % 2 ^ 8,
   h.type % 2 ^ 8, h.type / 2 ^ 8 % 2 ^ 8,
   h.seq % 2 ^ 8, h.seq / 2 ^ 8 % 2 ^ 8,
   h.aux % 2 ^ 8, h.aux / 2 ^ 8 % 2 ^ 8]

/-- Claim C7: the packet-size constants are 8, 1280 and their sum 1288,
and the four 16-bit header fields encode to exactly the 8-byte header
length. -/
theorem wh_comm_packet_sizes :
    WOLFHSM_COMM_HEADER_LEN = 8 ∧ WOLFHSM_COMM_DATA_LEN = 1280 ∧
    WOLFHSM_COMM_MTU = WOLFHSM_COMM_HEADER_LEN + WOLFHSM_COMM_DATA_LEN ∧
    WOLFHSM_COMM_MTU = 1288 ∧
    (∀ h : whHeader, (whHeader.encode h).length = WOLFHSM_COMM_HEADER_LEN) :=
  ⟨rfl, rfl, rfl, rfl, fun _ => rfl⟩

/-! ## Client session, modelled from the spec -/

/-- Result of a send operation, as enumerated by the design document. -/
inductive whSendResult where
  | ok (seq : Nat)
  | errNotInitialized
  | errSize
  | errTransport

/-- Modelled from the spec: wh_comm.c, the implementation of the client
session declared in wh_comm.h, is not among the sources, so the client
context is modelled from the design document: an initialized flag, the
16-bit sequence counter and the caller-assigned client id; the transport
binding is abstracted to whether a send succeeds. -/
structure whCommClient where
  initialized : Bool
  seq : Nat
  client_id : Nat

/-- Modelled from the spec: wh_CommClient_SendRequest builds a header
with the next sequence value (pre-increment) and returns the used
sequence number on success; it fails with a size error when data_size
exceeds the payload capacity, with a not-initialized error before Init,
or with the transport's error, and the sequence counter advances only on
successful send. -/
def wh_CommClient_SendRequest (ctx : whCommClient) (magic ty data_size : Nat)
    (transport_ok : Bool) : whSendResult × whCommClient :=
  if ctx.initialized = false then (.errNotInitialized, ctx)
  else if WOLFHSM_COMM_DATA_LEN < data_size then (.errSize, ctx)
  else if transport_ok = false then (.errTransport, ctx)
  else
    let s := (ctx.seq + 1) % 2 ^ 16
    (.ok s, { ctx with seq := s })

/-- Client state after k successful wh_CommClient_SendRequest calls. -/
def sendRequestIter (ctx : whCommClient) (magic ty data_size : Nat) : Nat → whCommClient
  | 0 => ctx
  | k + 1 => (wh_CommClient_SendRequest (sendRequestIter ctx magic ty data_size k)
      magic ty data_size true).2

theorem sendRequestIter_spec (ctx : whCommClient) (magic ty data_size : Nat)
    (hinit : ctx.initialized = true) (hseq : ctx.seq < 2 ^ 16)
    (hds : data_size ≤ WOLFHSM_COMM_DATA_LEN) (k : Nat) :
    (sendRequestIter ctx magic ty data_size k).initialized = true ∧
    (sendRequestIter ctx magic ty data_size k).seq = (ctx.seq + k) % 2 ^ 16 := by
  induction k with
  | zero =>
    refine ⟨hinit, ?_⟩
    show ctx.seq = (ctx.seq + 0) % 2 ^ 16
    omega
  | succ n ih =>
    obtain ⟨hi, hs⟩ := ih
    have h2 : ¬ ((sendRequestIter ctx magic ty data_size n).initialized = false) := by
      simp [hi]
    have h3 : ¬ (WOLFHSM_COMM_DATA_LEN < data_size) := Nat.not_lt.mpr hds
    constructor
    · show (wh_CommClient_SendRequest (sendRequestIter ctx magic ty data_size n)
          magic ty data_size true).2.initialized = true
      rw [wh_CommClient_SendRequest, if_neg h2, if_neg h3, if_neg (by simp)]
      exact hi
    · show (wh_CommClient_SendRequest (sendRequestIter ctx magic ty data_size n)
          magic ty data_size true).2.seq = (ctx.seq + (n + 1)) % 2 ^ 16
      rw [wh_CommClient_SendRequest, if_neg h2, if_neg h3, if_neg (by simp)]
      show ((sendRequestIter ctx magic ty data_size n).seq + 1) % 2 ^ 16 = _
      rw [hs]
      omega

/-- Claim C8: modelled from the spec, since the client implementation
behind wh_comm.h is not among the sources.  On an initialized client
whose 16-bit sequence counter starts at s0, the k-th successful
wh_CommClient_SendRequest call returns sequence (s0 + k) mod 2^16, and
every failing call (not initialized, oversized payload, or transport
error) leaves the session state unchanged, so the counter advances only
on successful send. -/
theorem wh_CommClient_SendRequest_seq_monotonic (ctx : whCommClient)
    (magic ty data_size k : Nat) (hinit : ctx.initialized = true)
    (hseq : ctx.seq < 2 ^ 16) (hds : data_size ≤ WOLFHSM_COMM_DATA_LEN) (hk : 1 ≤ k) :
    wh_CommClient_SendRequest (sendRequestIter ctx magic ty data_size (k - 1))
        magic ty data_size true
      = (.ok ((ctx.seq + k) % 2 ^ 16), sendRequestIter ctx magic ty data_size k) ∧
    (∀ (ctx2 : whCommClient) (m2 t2 d2 : Nat) (tok : Bool),
      (∀ s, (wh_CommClient_SendRequest ctx2 m2 t2 d2 tok).1 ≠ whSendResult.ok s) →
      (wh_CommClient_SendRequest ctx2 m2 t2 d2 tok).2 = ctx2) := by
  constructor
  · obtain ⟨hi, hs⟩ := sendRequestIter_spec ctx magic ty data_size hinit hseq hds (k - 1)
    have h2 : ¬ ((sendRequestIter ctx magic ty data_size (k - 1)).initialized = false) := by
      simp [hi]
    have h3 : ¬ (WOLFHSM_COMM_DATA_LEN < data_size) := Nat.not_lt.mpr hds
    have hk1 : k - 1 + 1 = k := by omega
    apply Prod.ext
    · rw [wh_CommClient_SendRequest, if_neg h2, if_neg h3, if_neg (by simp)]
      show whSendResult.ok (((sendRequestIter ctx magic ty data_size (k - 1)).seq + 1) % 2 ^ 16)
        = whSendResult.ok ((ctx.seq + k) % 2 ^ 16)
      rw [hs]
      congr 1
      omega
    · conv_rhs => rw [← hk1]
      rfl
  · intro ctx2 m2 t2 d2 tok hne
    by_cases h1 : ctx2.initialized = false
    · simp [wh_CommClient_SendRequest, h1]
    · by_cases hsize : WOLFHSM_COMM_DATA_LEN < d2
      · simp [wh_CommClient_SendRequest, h1, hsize]
      · by_cases htok : tok = false
        · simp [wh_CommClient_SendRequest, h1, hsize, htok]
        · exfalso
          exact hne ((ctx2.seq + 1) % 2 ^ 16)
            (by simp [wh_CommClient_SendRequest, h1, hsize, htok])

theorem wh_CommClient_SendRequest_seq_monotonic_witness :
    wh_CommClient_SendRequest (sendRequestIter ⟨true, 5, 7⟩ 0xA501 1 2 2) 0xA501 1 2 true
      = (whSendResult.ok ((5 + 3) % 2 ^ 16), sendRequestIter ⟨true, 5, 7⟩ 0xA501 1 2 3) :=
  (wh_CommClient_SendRequest_seq_monotonic ⟨true, 5, 7⟩ 0xA501 1 2 3 rfl (by decide)
    (by decide) (by decide)).1

/-! ## Server session, modelled from the spec -/

/-- Result of the server receive operation. -/
inductive whRecvResult where
  | ok (magic ty seq size : Nat)
  | noData

/-- A decoded packet: a header and its payload bytes. -/
structure whPacket where
  hdr : whHeader
  data : List Nat

/-- Result of the server send-response operation, carrying the response
packet handed to the transport. -/
inductive whRespResult where
  | sent (resp : whPacket)
  | errNotInitialized
  | errSize

/-- Modelled from the spec: the server implementation behind wh_comm.h
is not among the sources, so the server context is modelled from the
design document: an initialized flag, the cached sequence number of the
last received request (the reqid field of whCommServer), and the server
id. -/
structure whCommServer where
  initialized : Bool
  reqid : Nat
  server_id : Nat

/-- Modelled from the spec: wh_CommServer_RecvRequest polls the
transport; the absence of a packet is the non-fatal no-data condition;
on receipt it returns the header fields and the payload size and caches
the decoded sequence number so that the response can default to it. -/
def wh_CommServer_RecvRequest (ctx : whCommServer) (incoming : Option whPacket) :
    whRecvResult × whCommServer :=
  match incoming with
  | none => (.noData, ctx)
  | some p => (.ok p.hdr.magic p.hdr.type p.hdr.seq p.data.length,
      { ctx with reqid := p.hdr.seq })

/-- Modelled from the spec: wh_CommServer_SendResponse builds a response
packet using the supplied sequence number, which by default is the
cached request sequence, and the supplied payload; it fails with a size
error on an oversized payload.  The aux field is not constrained by the
claims and is modelled as zero. -/
def wh_CommServer_SendResponse (ctx : whCommServer) (magic ty seq : Nat)
    (data : List Nat) : whRespResult :=
  if ctx.initialized = false then .errNotInitialized
  else if WOLFHSM_COMM_DATA_LEN < data.length then .errSize
  else .sent ⟨⟨magic, ty, seq, 0⟩, data⟩

/-- Claim C9: modelled from the spec.  A request received with decoded
sequence S is cached by wh_CommServer_RecvRequest, and a subsequent
wh_CommServer_SendResponse that uses the cached (default) sequence
produces a response packet whose seq header field equals S. -/
theorem wh_CommServer_SendResponse_echoes_seq (ctx : whCommServer) (p : whPacket)
    (magic ty : Nat) (data : List Nat) (hinit : ctx.initialized = true)
    (hd : data.length ≤ WOLFHSM_COMM_DATA_LEN) :
    ∃ out resp,
      wh_CommServer_RecvRequest ctx (some p)
        = (.ok p.hdr.magic p.hdr.type p.hdr.seq p.data.length, out) ∧
      wh_CommServer_SendResponse out magic ty out.reqid data = .sent resp ∧
      resp.hdr.seq = p.hdr.seq := by
  refine ⟨{ ctx with reqid := p.hdr.seq }, ⟨⟨magic, ty, p.hdr.seq, 0⟩, data⟩, rfl, ?_, rfl⟩
  rw [wh_CommServer_SendResponse, if_neg (by simp [hinit]), if_neg (Nat.not_lt.mpr hd)]

theorem wh_CommServer_SendResponse_echoes_seq_witness :
    ∃ out resp,
      wh_CommServer_RecvRequest ⟨true, 0, 9⟩ (some ⟨⟨0xA501, 1, 42, 7⟩, [1, 2]⟩)
        = (whRecvResult.ok 0xA501 1 42 2, out) ∧
      wh_CommServer_SendResponse out 0xA501 2 out.reqid [0xAA] = .sent resp ∧
      resp.hdr.seq = 42 :=
  wh_CommServer_SendResponse_echoes_seq ⟨true, 0, 9⟩ ⟨⟨0xA501, 1, 42, 7⟩, [1, 2]⟩
    0xA501 2 [0xAA] rfl (by decide)
